import Mathlib

/-!
Shallow embedding of the local wallpaper catalog of the repository
(`src/core/image_manager.py` and `src/core/quality_filter.py`).

Modelling conventions:
  - A file's byte stream is modelled by `FileBytes`: either decodable image
    bytes (carrying the decoded properties that PIL would report — dimensions,
    mode, format — and the pixel statistics that `ImageStat`/`imagehash`
    derive from the pixels, all functions of the bytes) or undecodable bytes.
    The `salt` field distinguishes byte streams that happen to decode to the
    same properties, so byte-identity is plain equality.
  - The MD5 content fingerprint of `calculate_image_hash` is modelled as an
    idealized collision-free digest: `md5 = id` on byte streams (equal digests
    exactly for byte-identical files).
  - The filesystem is an association list from path strings to byte streams;
    `shutil.copy2` inserts, `Path.unlink` removes, `Path.exists` is lookup.
  - Python float aspect-ratio comparisons (`width / height < 0.5` etc.) are
    embedded as exact integer cross-multiplications, which agree with the
    IEEE semantics for all realistic image dimensions.
  - `datetime.now().isoformat()` admission timestamps are modelled as a `Nat`
    supplied by the caller (ISO timestamps compare chronologically).
  - The `while target_path.exists()` collision loop terminates because the
    candidate names are pairwise distinct and the filesystem is finite; it is
    embedded with fuel `fs.length + 1`, which is proved sufficient below.
-/

/-- Decoded image properties as PIL reports them, together with the pixel
statistics that `_analyze_image_quality` / `imagehash.phash` compute from the
pixel grid (all deterministic functions of the underlying bytes). -/
structure ImageData where
  width : Nat
  height : Nat
  mode : String
  fmt : String
  meanBrightness : Rat
  stddevBrightness : Rat
  colorDiversity : Rat
  laplacianVariance : Rat
  phash : List Bool
deriving DecidableEq

/-- The byte stream of a file: decodable image bytes or junk. -/
inductive FileBytes where
  | image (size : Nat) (idata : ImageData) (salt : Nat)
  | junk (size : Nat) (salt : Nat)
deriving DecidableEq

/-- Size in bytes (`Path.stat().st_size`). -/
def FileBytes.size : FileBytes → Nat
  | .image s _ _ => s
  | .junk s _ => s

/-- Idealized collision-free MD5 content digest (`hashlib.md5(f.read())`):
two files have equal digests exactly when they are byte-identical. -/
def md5 (b : FileBytes) : FileBytes := b

/-- The filesystem: paths to byte streams. -/
abbrev FS := List (String × FileBytes)

/-- Read a file (`open(path, 'rb')`): `none` when the path does not exist. -/
def fsGet (fs : FS) (p : String) : Option FileBytes :=
  (fs.find? (fun kv => decide (kv.1 = p))).map (fun kv => kv.2)

/-- Embedding of `Path.exists()`. -/
def fsExists (fs : FS) (p : String) : Bool :=
  (fsGet fs p).isSome

/-- Embedding of `shutil.copy2(source, target)`: write bytes at `target`. -/
def fsInsert (fs : FS) (p : String) (b : FileBytes) : FS :=
  (p, b) :: fs

/-- Embedding of `Path.unlink()`. -/
def fsErase (fs : FS) (p : String) : FS :=
  fs.filter (fun kv => !decide (kv.1 = p))

/-- The source-specific metadata mapping stored with each wallpaper; the
fields that the code reads back out of the free-form dict
(`metadata.get('wallpaper_id')`, `'tags'`, `'category'`, `'prompt'`) with
their Python defaults. -/
structure WallMeta where
  wallpaper_id : Option String := none
  tags : List String := []
  category : String := ""
  prompt : String := ""
deriving DecidableEq

/-- One record of `metadata['wallpapers']` as written by `store_wallpaper`. -/
structure WallInfo where
  path : String
  source_type : String
  added_date : Nat
  hash : Option FileBytes
  metadata : WallMeta
deriving DecidableEq

/-- The mutable state of `ImageManager`: the ordered `wallpapers` dict keyed
by the storage-relative id, the `known_hashes` set, and the stats counters. -/
structure MState where
  wallpapers : List (String × WallInfo)
  known_hashes : List FileBytes
  total_downloads : Nat
  by_source : List (String × Nat)
deriving DecidableEq

/-- Python dict lookup (first matching key). -/
def dictGet (l : List (String × WallInfo)) (k : String) : Option WallInfo :=
  (l.find? (fun kv => decide (kv.1 = k))).map (fun kv => kv.2)

/-- Python dict assignment: replace in place when the key is present,
append at the end otherwise (insertion order is preserved). -/
def dictInsert : List (String × WallInfo) → String → WallInfo → List (String × WallInfo)
  | [], k, v => [(k, v)]
  | kv :: rest, k, v => if kv.1 = k then (k, v) :: rest else kv :: dictInsert rest k v

/-- Python `del d[k]` on a dict (keys are unique, so filtering is exact). -/
def dictErase (l : List (String × WallInfo)) (k : String) : List (String × WallInfo) :=
  l.filter (fun kv => !decide (kv.1 = k))

/-- Embedding of `stats['by_source'][s] = stats['by_source'].get(s, 0) + 1`. -/
def bumpCount : List (String × Nat) → String → List (String × Nat)
  | [], s => [(s, 1)]
  | kv :: rest, s => if kv.1 = s then (s, kv.2 + 1) :: rest else kv :: bumpCount rest s

/-- Embedding of `by_source[s] = max(0, by_source[s] - 1)` guarded by
`s in by_source` (Nat subtraction saturates at 0). -/
def decCount : List (String × Nat) → String → List (String × Nat)
  | [], _ => []
  | kv :: rest, s => if kv.1 = s then (s, kv.2 - 1) :: rest else kv :: decCount rest s

/-- The fixed category set of `setup_directories` / `self.directories`. -/
def validSourceTypes : List String :=
  ["wallhaven", "ai_generated", "community", "public_domain"]

/-- Category directory `self.directories[source_type]` = `base_path / name`. -/
def dirFor (base source_type : String) : String :=
  base ++ "/" ++ source_type

/-- Embedding of `pathlib.Path.name`: the part after the last slash. -/
def baseName (p : String) : String :=
  String.mk ((p.data.reverse.takeWhile (fun c => !decide (c = '/'))).reverse)

/-- Index of the last dot in a character list, if any. -/
def lastDotIdx (l : List Char) : Option Nat :=
  match l.reverse.findIdx? (fun c => decide (c = '.')) with
  | none => none
  | some j => some (l.length - 1 - j)

/-- Embedding of `pathlib`'s `stem`/`suffix` split of a file name: split at
the last dot when it is neither the first nor the last character, otherwise
the suffix is empty. -/
def pathStemExt (name : String) : String × String :=
  let cs := name.data
  match lastDotIdx cs with
  | none => (name, "")
  | some i =>
    if 0 < i ∧ i < cs.length - 1 then (String.mk (cs.take i), String.mk (cs.drop i))
    else (name, "")

/-- Embedding of `Path.suffix` on a full path. -/
def pySuffix (p : String) : String :=
  (pathStemExt (baseName p)).2

/-- Characters kept by the target-name sanitizer:
`c.isalnum() or c in (' ', '-', '_')`. -/
def pyAllowed (c : Char) : Bool :=
  c.isAlphanum || decide (c = ' ') || decide (c = '-') || decide (c = '_')

/-- Python `str.rstrip()`: drop trailing whitespace. -/
def pyRstrip (l : List Char) : List Char :=
  (l.reverse.dropWhile Char.isWhitespace).reverse

/-- Embedding of
`"".join(c for c in target_name if c.isalnum() or c in (' ', '-', '_')).rstrip()`. -/
def pySanitize (s : String) : String :=
  String.mk (pyRstrip (s.data.filter pyAllowed))

/-- Embedding of `str(target_path.relative_to(self.base_path))` for a target
of the form `base ++ "/" ++ rest`. -/
def relId (base target : String) : String :=
  String.mk (target.data.drop (base.data.length + 1))

/-- Decimal digit to character. -/
def digitChar (d : Nat) : Char :=
  match d with
  | 0 => '0' | 1 => '1' | 2 => '2' | 3 => '3' | 4 => '4'
  | 5 => '5' | 6 => '6' | 7 => '7' | 8 => '8' | 9 => '9'
  | _ => '*'

/-- Structural helper computing the decimal digits of `n` (most significant
first) with fuel; `natStrAux n n` is exact since `n / 10 < n`. -/
def natStrAux : Nat → Nat → List Char
  | 0, _ => []
  | _ + 1, 0 => []
  | fuel + 1, n + 1 => natStrAux fuel ((n + 1) / 10) ++ [digitChar ((n + 1) % 10)]

/-- Embedding of Python `str(counter)`: the decimal representation. -/
def natStr (n : Nat) : String :=
  if n = 0 then "0" else String.mk (natStrAux n n)

/-- The candidate target of the collision loop:
`original_target.parent / f"{stem}_{counter}{suffix}"`. -/
def candName (dir stem ext : String) (counter : Nat) : String :=
  dir ++ "/" ++ stem ++ "_" ++ natStr counter ++ ext

/-- Embedding of the `while target_path.exists()` renaming loop of
`store_wallpaper` (lines 256-262), with explicit fuel: try
`stem_1`, `stem_2`, ... until a free name is found. -/
def collisionLoop (fs : FS) (dir stem ext : String) : Nat → Nat → String
  | 0, counter => candName dir stem ext counter
  | fuel + 1, counter =>
    let cand := candName dir stem ext counter
    if fsExists fs cand then collisionLoop fs dir stem ext fuel (counter + 1) else cand

/-- Embedding of `ImageManager.calculate_image_hash`: MD5 of the file's
bytes, `None` when the file cannot be read. -/
def calculate_image_hash (fs : FS) (p : String) : Option FileBytes :=
  (fsGet fs p).map md5

/-- Validity of a file's content for `ImageManager.validate_image`:
undecodable bytes fail (the `except` path); then the minimum-resolution check
(at least 1280x720) and the aspect-ratio check (`width / height` within
[0.5, 3.0], embedded by cross-multiplication). -/
def validContent : Option FileBytes → Bool
  | none => false
  | some (.junk _ _) => false
  | some (.image _ idata _) =>
    if idata.width < 1280 ∨ idata.height < 720 then false
    else if 2 * idata.width < idata.height ∨ 3 * idata.height < idata.width then false
    else true

/-- Embedding of `ImageManager.validate_image` (lines 173-207). -/
def validate_image (fs : FS) (p : String) : Bool :=
  validContent (fsGet fs p)

/-- The scan of `find_duplicate` once the hash is known to be in
`known_hashes`: the first wallpaper whose recorded hash matches and whose
backing file still exists. -/
def find_duplicate_hash (fs : FS) (st : MState) (h : FileBytes) : Option String :=
  if h ∈ st.known_hashes then
    (st.wallpapers.find? (fun kv =>
        decide (kv.2.hash = some h) && fsExists fs kv.2.path)).map (fun kv => kv.2.path)
  else none

/-- Embedding of `ImageManager.find_duplicate` (lines 122-146). -/
def find_duplicate (fs : FS) (st : MState) (p : String) : Option String :=
  match calculate_image_hash fs p with
  | none => none
  | some h => find_duplicate_hash fs st h

/-- Source-type filter used by `find_wallpaper_by_id`, `list_wallpapers` and
`search_wallpapers`: no filter, or equality with the recorded source type. -/
def typeOk (source_type : Option String) (info : WallInfo) : Bool :=
  match source_type with
  | none => true
  | some s => decide (info.source_type = s)

/-- Embedding of `ImageManager.find_wallpaper_by_id` (lines 148-171):
first entry passing the optional source-type filter whose
`metadata['wallpaper_id']` matches and whose file still exists. -/
def find_wallpaper_by_id (fs : FS) (st : MState) (wallpaper_id : String)
    (source_type : Option String) : Option String :=
  (st.wallpapers.find? (fun kv =>
      typeOk source_type kv.2 && decide (kv.2.metadata.wallpaper_id = some wallpaper_id) &&
      fsExists fs kv.2.path)).map (fun kv => kv.2.path)

/-- The target filename of `store_wallpaper` (lines 245-251): the sanitized
override plus the source's extension, or the source's own file name. -/
def storeTargetName (source_path : String) (target_name : Option String) : String :=
  match target_name with
  | some t => pySanitize t ++ pySuffix source_path
  | none => baseName source_path

/-- The final target path chosen by `store_wallpaper` (lines 253-262):
the category directory plus the target filename, renamed through the
collision loop when that path is already occupied. -/
def storeTarget (base : String) (fs : FS) (source_path source_type : String)
    (target_name : Option String) : String :=
  let target_filename := storeTargetName source_path target_name
  let dir := dirFor base source_type
  let target0 := dir ++ "/" ++ target_filename
  let se := pathStemExt target_filename
  if fsExists fs target0 then collisionLoop fs dir se.1 se.2 (fs.length + 1) 1
  else target0

/-- Embedding of `ImageManager.store_wallpaper` (lines 209-295). Returns the
stored (or pre-existing duplicate) path together with the updated manager
state and filesystem; `none` on rejection. -/
def store_wallpaper (base : String) (fs : FS) (st : MState) (source_path : String)
    (source_type : String) (meta : WallMeta) (target_name : Option String) (now : Nat) :
    Option String × MState × FS :=
  if source_type ∈ validSourceTypes then
    if fsExists fs source_path then
      if validate_image fs source_path then
        match find_duplicate fs st source_path with
        | some existing => (some existing, st, fs)
        | none =>
          let target := storeTarget base fs source_path source_type target_name
          match fsGet fs source_path with
          | none => (none, st, fs)
          | some b =>
            let fs2 := fsInsert fs target b
            let image_hash := calculate_image_hash fs2 target
            let known2 :=
              match image_hash with
              | some h => st.known_hashes.insert h
              | none => st.known_hashes
            let wid := relId base target
            let info : WallInfo := ⟨target, source_type, now, image_hash, meta⟩
            (some target,
             { wallpapers := dictInsert st.wallpapers wid info,
               known_hashes := known2,
               total_downloads := st.total_downloads + 1,
               by_source := bumpCount st.by_source source_type },
             fs2)
      else (none, st, fs)
    else (none, st, fs)
  else (none, st, fs)

/-- Embedding of `ImageManager.list_wallpapers` (lines 368-391): entries
passing the optional source-type filter whose backing file still exists. -/
def list_wallpapers (fs : FS) (st : MState) (source_type : Option String) :
    List (String × WallInfo) :=
  st.wallpapers.filter (fun kv => typeOk source_type kv.2 && fsExists fs kv.2.path)

/-- Embedding of `ImageManager.delete_wallpaper` (lines 449-494). -/
def delete_wallpaper (fs : FS) (st : MState) (wallpaper_id : String) : Bool × MState × FS :=
  match dictGet st.wallpapers wallpaper_id with
  | none => (false, st, fs)
  | some info =>
    let fs2 := if fsExists fs info.path then fsErase fs info.path else fs
    let known2 :=
      match info.hash with
      | some h => st.known_hashes.filter (fun x => !decide (x = h))
      | none => st.known_hashes
    (true,
     { wallpapers := dictErase st.wallpapers wallpaper_id,
       known_hashes := known2,
       total_downloads := st.total_downloads,
       by_source := decCount st.by_source info.source_type },
     fs2)

/-- Stable ascending insertion by `added_date`; together with `sortByDate`
this models Python's stable `list.sort(key=lambda x: x[1].get('added_date'))`. -/
def insertByDate (x : String × WallInfo) : List (String × WallInfo) → List (String × WallInfo)
  | [] => [x]
  | y :: ys =>
    if x.2.added_date ≤ y.2.added_date then x :: y :: ys else y :: insertByDate x ys

/-- Stable ascending sort by `added_date` (oldest first). -/
def sortByDate : List (String × WallInfo) → List (String × WallInfo)
  | [] => []
  | x :: xs => insertByDate x (sortByDate xs)

/-- One iteration of the removal loop of `cleanup_old_wallpapers`
(lines 319-336): unlink the file if present, delete the catalog record,
discard the hash, and count the removal. -/
def removeStep (acc : Nat × MState × FS) (kv : String × WallInfo) : Nat × MState × FS :=
  let st := acc.2.1
  let fs := acc.2.2
  let fs2 := if fsExists fs kv.2.path then fsErase fs kv.2.path else fs
  let known2 :=
    match kv.2.hash with
    | some h => st.known_hashes.filter (fun x => !decide (x = h))
    | none => st.known_hashes
  (acc.1 + 1,
   { wallpapers := dictErase st.wallpapers kv.1,
     known_hashes := known2,
     total_downloads := st.total_downloads,
     by_source := st.by_source },
   fs2)

/-- Embedding of `ImageManager.cleanup_old_wallpapers` (lines 297-341). -/
def cleanup_old_wallpapers (fs : FS) (st : MState) (max_total : Nat) : Nat × MState × FS :=
  if st.wallpapers.length ≤ max_total then (0, st, fs)
  else
    let sorted := sortByDate st.wallpapers
    let to_remove := sorted.take (st.wallpapers.length - max_total)
    to_remove.foldl removeStep (0, st, fs)

/-- Python `str.lower()`: character-wise lowercasing. -/
def strLower (s : String) : String :=
  String.mk (s.data.map Char.toLower)

/-- Python `pattern in haystack` substring test: the pattern occurs as a
contiguous run of the haystack's characters. -/
def strContainsSub (hay pat : String) : Bool :=
  (List.range (hay.data.length + 1)).any
    (fun i => decide (pat.data <+: hay.data.drop i))

/-- The per-entry matching chain of `search_wallpapers` (lines 575-614):
filename, then tags, then category, then prompt, short-circuiting on the
first hit. -/
def entryMatches (q : String) (path : String) (meta : WallMeta) : Bool :=
  if strContainsSub (strLower (baseName path)) q then true
  else if meta.tags.any (fun tag => strContainsSub (strLower tag) q) then true
  else if strContainsSub (strLower meta.category) q then true
  else strContainsSub (strLower meta.prompt) q

/-- Embedding of `ImageManager.search_wallpapers` (lines 553-616). -/
def search_wallpapers (fs : FS) (st : MState) (query : String)
    (source_type : Option String) : List (String × WallInfo) :=
  let q := strLower query
  st.wallpapers.filter (fun kv =>
    typeOk source_type kv.2 && fsExists fs kv.2.path &&
    entryMatches q kv.2.path kv.2.metadata)

/-- Hard-failure messages of `QualityFilter.validate_wallpaper`; each
constructor stands for one of the distinct f-strings appended to
`result['errors']`. -/
inductive VError where
  | fileDoesNotExist
  | fileTooSmall (size : Nat)
  | resolutionTooLow (w h : Nat)
  | badAspect (w h : Nat)
  | duplicateImage
  | processingFailed
deriving DecidableEq

/-- Soft-failure messages appended to `result['warnings']`. -/
inductive VWarning where
  | largeFile (size : Nat)
  | unusualFormat (fmt : String)
  | grayscaleImage
  | unusualColorMode (m : String)
  | blurryImage
  | veryDark
  | veryBright
  | lowContrast
deriving DecidableEq

/-- Advisory messages of `_generate_recommendations`. -/
inductive RecMsg where
  | excellent4K
  | greatQHD
  | goodFullHD
  | ultrawide
  | standardWidescreen
  | mobileWallpaper
  | highContrast
  | richColorPalette
deriving DecidableEq

/-- The result dictionary of `QualityFilter.validate_wallpaper`. -/
structure VResult where
  valid : Bool
  errors : List VError
  warnings : List VWarning
  recommendations : List RecMsg
deriving DecidableEq

/-- The duplicate-tracking state of `QualityFilter`. -/
structure QFState where
  known_hashes : List FileBytes
  known_phashes : List (List Bool)
deriving DecidableEq

/-- Hamming distance between perceptual hashes (`hash1 - hash2`). -/
def phashDist (a b : List Bool) : Nat :=
  ((a.zip b).filter (fun p => !decide (p.1 = p.2))).length

/-- Embedding of `QualityFilter._is_duplicate` (lines 315-355): exact file
hash, then exact perceptual hash, then Hamming distance at most 5; on a miss
both hashes are recorded. -/
def qfIsDuplicate (qf : QFState) (b : FileBytes) (idata : ImageData) : Bool × QFState :=
  let fileHash := md5 b
  if fileHash ∈ qf.known_hashes then (true, qf)
  else if idata.phash ∈ qf.known_phashes then (true, qf)
  else if qf.known_phashes.any (fun k => phashDist idata.phash k ≤ 5) then (true, qf)
  else (false, ⟨fileHash :: qf.known_hashes, idata.phash :: qf.known_phashes⟩)

/-- Embedding of `QualityFilter._generate_recommendations` (lines 366-407);
float thresholds on the ratio are embedded by cross-multiplication, and the
`contrast` / `color_diversity` metrics default to 0 when the quality analysis
did not run. -/
def generate_recommendations (w h : Nat) (contrast colorDiversity : Rat) : List RecMsg :=
  let resRecs : List RecMsg :=
    if 3840 ≤ w ∧ 2160 ≤ h then [.excellent4K]
    else if 2560 ≤ w ∧ 1440 ≤ h then [.greatQHD]
    else if 1920 ≤ w ∧ 1080 ≤ h then [.goodFullHD]
    else []
  let arRecs : List RecMsg :=
    if 23 * h ≤ 10 * w ∧ 10 * w ≤ 24 * h then [.ultrawide]
    else if 17 * h ≤ 10 * w ∧ 10 * w ≤ 18 * h then [.standardWidescreen]
    else if 55 * h ≤ 100 * w ∧ 100 * w ≤ 65 * h then [.mobileWallpaper]
    else []
  let cRecs : List RecMsg := if (50 : Rat) < contrast then [.highContrast] else []
  let dRecs : List RecMsg :=
    if (3 : Int) * colorDiversity.den < 10 * colorDiversity.num then [.richColorPalette]
    else []
  resRecs ++ arRecs ++ cRecs ++ dRecs

/-- Minimum file size accepted by the quality gate (50 KiB). -/
def min_file_size : Nat := 50 * 1024

/-- File size beyond which a warning is emitted (50 MiB). -/
def max_file_size : Nat := 50 * 1024 * 1024

/-- Embedding of `QualityFilter.validate_wallpaper` (lines 42-151). Early
returns for a missing or too-small file; the `except` path for undecodable
bytes or a zero height (the `width / height` metric raises); then the
resolution and aspect-ratio hard checks ([0.5, 3.5], by cross-multiplication),
the format/mode warnings, and — only when no error occurred so far — the
quality warnings and the duplicate check. `valid` is set to whether the error
list is empty. Returns the result together with the updated duplicate-tracking
state. -/
def validate_wallpaper (fs : FS) (qf : QFState) (image_path : String)
    (strict_mode : Bool) : VResult × QFState :=
  match fsGet fs image_path with
  | none => (⟨false, [.fileDoesNotExist], [], []⟩, qf)
  | some b =>
    if b.size < min_file_size then (⟨false, [.fileTooSmall b.size], [], []⟩, qf)
    else
      let sizeWarns : List VWarning :=
        if max_file_size < b.size then [.largeFile b.size] else []
      match b with
      | .junk _ _ => (⟨false, [.processingFailed], sizeWarns, []⟩, qf)
      | .image _ idata _ =>
        if idata.height = 0 then (⟨false, [.processingFailed], sizeWarns, []⟩, qf)
        else
          let w := idata.width
          let h := idata.height
          let resErrs : List VError :=
            if w < 1280 ∨ h < 720 then [.resolutionTooLow w h] else []
          let arErrs : List VError :=
            if 2 * w < h ∨ 7 * h < 2 * w then [.badAspect w h] else []
          let baseErrs := resErrs ++ arErrs
          let fmtWarns : List VWarning :=
            if idata.fmt ∈ ["JPEG", "PNG", "WEBP", "BMP"] then []
            else [.unusualFormat idata.fmt]
          let modeWarns : List VWarning :=
            if idata.mode ∈ ["RGB", "RGBA"] then []
            else if idata.mode ∈ ["L", "LA"] then [.grayscaleImage]
            else [.unusualColorMode idata.mode]
          if baseErrs = [] then
            let qualWarns : List VWarning :=
              (if strict_mode = true ∧ idata.laplacianVariance < 100 then [.blurryImage]
               else []) ++
              (if idata.meanBrightness < 30 then [.veryDark] else []) ++
              (if 220 < idata.meanBrightness then [.veryBright] else []) ++
              (if idata.stddevBrightness < 20 then [.lowContrast] else [])
            let dupRes := qfIsDuplicate qf b idata
            let dupErrs : List VError := if dupRes.1 = true then [.duplicateImage] else []
            let recs := generate_recommendations w h idata.stddevBrightness idata.colorDiversity
            (⟨dupErrs.isEmpty, dupErrs, sizeWarns ++ fmtWarns ++ modeWarns ++ qualWarns, recs⟩,
             dupRes.2)
          else
            let recs := generate_recommendations w h 0 0
            (⟨baseErrs.isEmpty, baseErrs, sizeWarns ++ fmtWarns ++ modeWarns, recs⟩, qf)

/-! Concrete fixtures used by witness and counterexample theorems. -/

/-- An empty source-metadata mapping. -/
def exMeta : WallMeta := ⟨none, [], "", ""⟩

/-- Decoded data of a plain RGB JPEG with the given dimensions. -/
def exIData (w h : Nat) : ImageData := ⟨w, h, "RGB", "JPEG", 100, 50, 1, 200, []⟩

/-- Image bytes with the given file size and dimensions. -/
def exImg (sz w h : Nat) : FileBytes := .image sz (exIData w h) 0

/-- A fresh, empty manager state. -/
def exEmptySt : MState := ⟨[], [], 0, []⟩

/-- A fresh quality-filter state. -/
def exQF : QFState := ⟨[], []⟩

/-- A catalog record for a stored 1920x1080 community wallpaper. -/
def exInfoA : WallInfo :=
  ⟨"B/community/a.png", "community", 1, some (exImg 60000 1920 1080), exMeta⟩

/-- A one-entry manager state holding `exInfoA`. -/
def exSt1 : MState :=
  ⟨[("community/a.png", exInfoA)], [exImg 60000 1920 1080], 1, [("community", 1)]⟩

/-- The filesystem backing `exSt1`. -/
def exFS1 : FS := [("B/community/a.png", exImg 60000 1920 1080)]

/-- Source metadata carrying a native id, tags, category and prompt. -/
def exMetaW : WallMeta := ⟨some "w1", ["nature"], "landscape", "a forest"⟩

/-- A catalog record with rich source metadata. -/
def exInfoB : WallInfo :=
  ⟨"B/community/b.png", "community", 2, some (exImg 60000 1920 1080), exMetaW⟩

/-- A one-entry manager state holding `exInfoB`. -/
def exStB : MState :=
  ⟨[("community/b.png", exInfoB)], [exImg 60000 1920 1080], 1, [("community", 1)]⟩

/-- The filesystem backing `exStB`. -/
def exFSB : FS := [("B/community/b.png", exImg 60000 1920 1080)]

/-- A catalog record carrying a native id whose backing file is missing. -/
def exDeadInfo : WallInfo :=
  ⟨"B/community/dead.png", "community", 1, none, ⟨some "w1", [], "", ""⟩⟩

/-- A one-entry manager state whose single entry is dead (no backing file). -/
def exStDead : MState := ⟨[("community/dead.png", exDeadInfo)], [], 1, [("community", 1)]⟩

/-- A hash-less catalog record at the given path with the given timestamp. -/
def exC3Info (p : String) (d : Nat) : WallInfo := ⟨p, "community", d, none, exMeta⟩

/-- A three-entry catalog admitted at times 1, 2, 3. -/
def exC3St : MState :=
  ⟨[("community/x.png", exC3Info "B/community/x.png" 1),
    ("community/y.png", exC3Info "B/community/y.png" 2),
    ("community/z.png", exC3Info "B/community/z.png" 3)], [], 3, [("community", 3)]⟩

/-- A filesystem backing only the two newest entries of `exC3St`: the oldest
entry is dead. -/
def exC3FS : FS :=
  [("B/community/y.png", exImg 60000 1920 1080), ("B/community/z.png", exImg 60000 1920 1080)]

/-! Basic lemmas about the filesystem model. -/

theorem fsGet_insert (fs : FS) (t q : String) (b : FileBytes) :
    fsGet (fsInsert fs t b) q = if t = q then some b else fsGet fs q := by
  simp only [fsGet, fsInsert, List.find?]
  split <;> simp_all

theorem fsExists_insert (fs : FS) (t q : String) (b : FileBytes) :
    fsExists (fsInsert fs t b) q = (decide (t = q) || fsExists fs q) := by
  simp only [fsExists, fsGet_insert]
  split <;> simp_all

theorem fsExists_iff_isSome (fs : FS) (p : String) :
    fsExists fs p = true ↔ (fsGet fs p).isSome := by
  simp [fsExists]

theorem fsExists_erase_self (fs : FS) (p : String) :
    fsExists (fsErase fs p) p = false := by
  induction fs with
  | nil => rfl
  | cons kv rest ih =>
    by_cases h : kv.1 = p <;>
      simp_all [fsErase, fsExists, fsGet, List.filter, List.find?]

/-- The second claim of the specification: when image validation fails,
`store_wallpaper` returns `None` and performs no catalog or filesystem
mutation whatsoever. -/
theorem C2_validation_failure_no_mutation (base : String) (fs : FS) (st : MState)
    (source_path source_type : String) (meta : WallMeta) (target_name : Option String)
    (now : Nat) (hval : validate_image fs source_path = false) :
    store_wallpaper base fs st source_path source_type meta target_name now = (none, st, fs) := by
  rw [store_wallpaper.eq_def]
  split
  · split
    · rw [if_neg (by simp [hval])]
    · rfl
  · rfl

/-- Witness for C2: a 640x480 image fails validation and the store call
leaves the state and filesystem untouched. -/
theorem C2_validation_failure_no_mutation_witness :
    validate_image [("tmp/a.png", exImg 60000 640 480)] "tmp/a.png" = false ∧
    store_wallpaper "B" [("tmp/a.png", exImg 60000 640 480)] exEmptySt "tmp/a.png"
        "community" exMeta none 1 =
      (none, exEmptySt, [("tmp/a.png", exImg 60000 640 480)]) :=
  ⟨by decide,
   C2_validation_failure_no_mutation "B" [("tmp/a.png", exImg 60000 640 480)] exEmptySt
     "tmp/a.png" "community" exMeta none 1 (by decide)⟩

/-- The tenth claim: on every execution path of `validate_wallpaper`, the
returned result has `valid = true` exactly when the `errors` list is empty. -/
theorem C10_valid_iff_no_errors (fs : FS) (qf : QFState) (p : String) (strict : Bool) :
    (validate_wallpaper fs qf p strict).1.valid = true ↔
      (validate_wallpaper fs qf p strict).1.errors = [] := by
  rw [validate_wallpaper.eq_def]
  split
  · simp
  · split
    · simp
    · split <;> split <;>
        first
        | (simp [List.isEmpty_iff]; done)
        | (split <;>
            first
            | (simp [List.isEmpty_iff]; done)
            | (simp only [apply_ite Prod.fst, apply_ite VResult.valid,
                 apply_ite VResult.errors]
               split <;> (try split) <;> simp_all))

/-! Lemmas about dictionary erasure and the duplicate index. -/

theorem find?_dictErase (l : List (String × WallInfo)) (k : String) :
    (dictErase l k).find? (fun kv => decide (kv.1 = k)) = none := by
  rw [List.find?_eq_none]
  intro kv hmem
  have h := (List.mem_filter.mp hmem).2
  simpa using h

theorem dictGet_erase_self (l : List (String × WallInfo)) (k : String) :
    dictGet (dictErase l k) k = none := by
  simp [dictGet, find?_dictErase]

theorem not_mem_hash_filter (l : List FileBytes) (h : FileBytes) :
    h ∉ l.filter (fun x => !decide (x = h)) := by
  simp [List.mem_filter]

theorem not_mem_dictErase_self (l : List (String × WallInfo)) (k : String) (v : WallInfo) :
    (k, v) ∉ dictErase l k := by
  intro hmem
  have h := (List.mem_filter.mp hmem).2
  simp at h

/-- The fourth claim: `delete_wallpaper` returns `true` exactly when the id
was in the catalog; on a missing id it changes nothing; on a present id it
removes the backing file, drops the entry's fingerprint from the duplicate
index, deletes the catalog record, and the id disappears from every
subsequent `list_wallpapers` view. -/
theorem C4_delete_wallpaper_spec (fs : FS) (st : MState) (wid : String) :
    ((delete_wallpaper fs st wid).1 = true ↔ (dictGet st.wallpapers wid).isSome = true)
    ∧ (dictGet st.wallpapers wid = none → delete_wallpaper fs st wid = (false, st, fs))
    ∧ (∀ info, dictGet st.wallpapers wid = some info →
        (delete_wallpaper fs st wid).1 = true ∧
        fsExists (delete_wallpaper fs st wid).2.2 info.path = false ∧
        (∀ hsh, info.hash = some hsh → hsh ∉ (delete_wallpaper fs st wid).2.1.known_hashes) ∧
        dictGet (delete_wallpaper fs st wid).2.1.wallpapers wid = none ∧
        (∀ sty info2,
          (wid, info2) ∉
            list_wallpapers (delete_wallpaper fs st wid).2.2 (delete_wallpaper fs st wid).2.1 sty)) := by
  rcases hg : dictGet st.wallpapers wid with _ | info
  · refine ⟨by simp [delete_wallpaper, hg], fun _ => by simp [delete_wallpaper, hg], ?_⟩
    intro info hinfo
    exact Option.noConfusion hinfo
  · refine ⟨by simp [delete_wallpaper, hg], fun hn => Option.noConfusion hn, ?_⟩
    intro info2 hinfo2
    obtain rfl : info = info2 := by injection hinfo2
    refine ⟨by simp [delete_wallpaper, hg], ?_, ?_, ?_, ?_⟩
    · simp only [delete_wallpaper, hg]
      split
      · exact fsExists_erase_self fs info.path
      · simp_all
    · intro hsh hh
      simp only [delete_wallpaper, hg, hh]
      exact not_mem_hash_filter _ _
    · simp only [delete_wallpaper, hg]
      exact dictGet_erase_self _ _
    · intro sty info2 hmem
      simp only [delete_wallpaper, hg, list_wallpapers] at hmem
      have h2 := List.mem_of_mem_filter hmem
      exact not_mem_dictErase_self _ _ _ h2

/-- Witness for C4: deleting the sole entry of a concrete one-entry catalog
removes the file, the fingerprint, and the record. -/
theorem C4_delete_wallpaper_spec_witness :
    dictGet exSt1.wallpapers "community/a.png" = some exInfoA ∧
    (delete_wallpaper exFS1 exSt1 "community/a.png").1 = true ∧
    fsExists (delete_wallpaper exFS1 exSt1 "community/a.png").2.2 exInfoA.path = false ∧
    dictGet (delete_wallpaper exFS1 exSt1 "community/a.png").2.1.wallpapers
      "community/a.png" = none :=
  have h := C4_delete_wallpaper_spec exFS1 exSt1 "community/a.png"
  have h3 := h.2.2 exInfoA (by decide)
  ⟨by decide, h3.1, h3.2.1, h3.2.2.2.1⟩

/-! Lemmas for the search predicate. -/

theorem entryMatches_iff (q path : String) (m : WallMeta) :
    entryMatches q path m = true ↔
      (strContainsSub (strLower (baseName path)) q = true ∨
       (∃ tag ∈ m.tags, strContainsSub (strLower tag) q = true) ∨
       strContainsSub (strLower m.category) q = true ∨
       strContainsSub (strLower m.prompt) q = true) := by
  constructor
  · intro hm
    rw [entryMatches] at hm
    by_cases h1 : strContainsSub (strLower (baseName path)) q = true
    · exact Or.inl h1
    rw [if_neg h1] at hm
    by_cases h2 : m.tags.any (fun tag => strContainsSub (strLower tag) q) = true
    · exact Or.inr (Or.inl (List.any_eq_true.mp h2))
    rw [if_neg h2] at hm
    by_cases h3 : strContainsSub (strLower m.category) q = true
    · exact Or.inr (Or.inr (Or.inl h3))
    rw [if_neg h3] at hm
    exact Or.inr (Or.inr (Or.inr hm))
  · intro h
    rw [entryMatches]
    by_cases h1 : strContainsSub (strLower (baseName path)) q = true
    · rw [if_pos h1]
    rw [if_neg h1]
    by_cases h2 : m.tags.any (fun tag => strContainsSub (strLower tag) q) = true
    · rw [if_pos h2]
    rw [if_neg h2]
    by_cases h3 : strContainsSub (strLower m.category) q = true
    · rw [if_pos h3]
    rw [if_neg h3]
    rcases h with h | h | h | h
    · exact absurd h h1
    · exact absurd (List.any_eq_true.mpr h) h2
    · exact absurd h h3
    · exact h

/-- The seventh claim: `search_wallpapers` returns exactly the live entries
passing the optional source-type filter whose lowercased query occurs in the
filename, a tag, the category, or the prompt; with unique catalog keys every
matching entry appears exactly once, in catalog order (no relevance
ranking). -/
theorem C7_search_spec (fs : FS) (st : MState) (query : String) (sty : Option String)
    (hkeys : (st.wallpapers.map Prod.fst).Nodup) :
    (∀ k info, (k, info) ∈ search_wallpapers fs st query sty ↔
      ((k, info) ∈ st.wallpapers ∧ typeOk sty info = true ∧ fsExists fs info.path = true ∧
        (strContainsSub (strLower (baseName info.path)) (strLower query) = true ∨
         (∃ tag ∈ info.metadata.tags,
            strContainsSub (strLower tag) (strLower query) = true) ∨
         strContainsSub (strLower info.metadata.category) (strLower query) = true ∨
         strContainsSub (strLower info.metadata.prompt) (strLower query) = true)))
    ∧ ((search_wallpapers fs st query sty).map Prod.fst).Nodup
    ∧ (search_wallpapers fs st query sty).Sublist st.wallpapers := by
  refine ⟨?_, ?_, ?_⟩
  · intro k info
    rw [search_wallpapers, List.mem_filter]
    simp only [Bool.and_eq_true]
    rw [entryMatches_iff]
    constructor
    · rintro ⟨hm, ⟨ht, hf⟩, hmatch⟩
      exact ⟨hm, ht, hf, hmatch⟩
    · rintro ⟨hm, ht, hf, hmatch⟩
      exact ⟨hm, ⟨ht, hf⟩, hmatch⟩
  · exact hkeys.sublist ((List.filter_sublist _).map Prod.fst)
  · exact List.filter_sublist _

/-- Witness for C7: a concrete catalog entry is found by a prompt-substring
search. -/
theorem C7_search_spec_witness :
    ("community/b.png", exInfoB) ∈ search_wallpapers exFSB exStB "Forest" none :=
  ((C7_search_spec exFSB exStB "Forest" none (by decide)).1 "community/b.png" exInfoB).mpr
    ⟨by decide, by decide, by decide, Or.inr (Or.inr (Or.inr (by decide)))⟩

/-- Counterexample for C8 as frozen: an entry whose `wallpaper_id` matches
and whose source-type filter is omitted exists, yet `find_wallpaper_by_id`
returns `None`, because the entry's backing file no longer exists — the
claim omits the liveness condition the code enforces. -/
theorem C8_find_by_id_counterexample :
    ("community/dead.png", exDeadInfo) ∈ exStDead.wallpapers ∧
    exDeadInfo.metadata.wallpaper_id = some "w1" ∧
    find_wallpaper_by_id [] exStDead "w1" none = none := by
  decide

/-- The eighth claim, amended with the liveness condition: the lookup returns
`None` whenever a source-type filter is given and no id-matching entry has
that source type; and it returns the path of an id-matching entry whenever
some id-matching entry passes the filter (or the filter is omitted) and its
backing file exists. -/
theorem C8_find_by_id_spec (fs : FS) (st : MState) (nid : String) :
    (∀ s, (∀ kv ∈ st.wallpapers, kv.2.metadata.wallpaper_id = some nid →
        kv.2.source_type ≠ s) →
      find_wallpaper_by_id fs st nid (some s) = none)
    ∧ (∀ sty,
        (∃ kv ∈ st.wallpapers, kv.2.metadata.wallpaper_id = some nid ∧
          typeOk sty kv.2 = true ∧ fsExists fs kv.2.path = true) →
        ∃ kv ∈ st.wallpapers, kv.2.metadata.wallpaper_id = some nid ∧
          typeOk sty kv.2 = true ∧ fsExists fs kv.2.path = true ∧
          find_wallpaper_by_id fs st nid sty = some kv.2.path) := by
  constructor
  · intro s hmis
    rw [find_wallpaper_by_id, Option.map_eq_none', List.find?_eq_none]
    intro kv hmem
    by_cases hid : kv.2.metadata.wallpaper_id = some nid
    · have hne := hmis kv hmem hid
      simp [typeOk, hne]
    · simp [hid]
  · intro sty hex
    obtain ⟨kv, hmem, hid, hty, hlive⟩ := hex
    have hsome : (st.wallpapers.find? (fun kv =>
        typeOk sty kv.2 && decide (kv.2.metadata.wallpaper_id = some nid) &&
        fsExists fs kv.2.path)).isSome := by
      rw [List.find?_isSome]
      exact ⟨kv, hmem, by simp [hty, hid, hlive]⟩
    obtain ⟨y, hy⟩ := Option.isSome_iff_exists.mp hsome
    have hyp := List.find?_some hy
    have hymem := List.mem_of_find?_eq_some hy
    simp only [Bool.and_eq_true, decide_eq_true_eq] at hyp
    exact ⟨y, hymem, hyp.1.2, hyp.1.1, hyp.2,
      by simp [find_wallpaper_by_id, hy]⟩

/-- Witness for C8: with a live id-matching entry and a matching filter the
lookup returns that entry's path. -/
theorem C8_find_by_id_spec_witness :
    ∃ kv ∈ exStB.wallpapers, kv.2.metadata.wallpaper_id = some "w1" ∧
      typeOk (some "community") kv.2 = true ∧ fsExists exFSB kv.2.path = true ∧
      find_wallpaper_by_id exFSB exStB "w1" (some "community") = some kv.2.path :=
  (C8_find_by_id_spec exFSB exStB "w1").2 (some "community")
    ⟨("community/b.png", exInfoB), by decide, by decide, by decide, by decide⟩

/-- Counterexample for C5 as frozen: a readable 640x480 image whose file is
below the 50 KiB floor is rejected, but its `errors` list is exactly the
file-size message — it contains no resolution message, because
`validate_wallpaper` returns early before the resolution check. -/
theorem C5_lowres_counterexample :
    fsGet [("p", exImg 100 640 480)] "p" = some (exImg 100 640 480) ∧
    (exIData 640 480).width < 1280 ∧
    (validate_wallpaper [("p", exImg 100 640 480)] exQF "p" false).1.valid = false ∧
    (validate_wallpaper [("p", exImg 100 640 480)] exQF "p" false).1.errors =
      [VError.fileTooSmall 100] := by
  decide

/-- The fifth claim, amended: every readable image below 1280x720 yields
`valid = false` with a non-empty error list, and the error list contains the
resolution message whenever the file also meets the 50 KiB size floor and has
a nonzero decoded height (otherwise the size or processing error preempts
it); `validate_image` returns `false` for every such image. -/
theorem C5_lowres_rejected (fs : FS) (qf : QFState) (p : String) (strict : Bool)
    (sz : Nat) (idata : ImageData) (salt : Nat)
    (hget : fsGet fs p = some (.image sz idata salt))
    (hres : idata.width < 1280 ∨ idata.height < 720) :
    (validate_wallpaper fs qf p strict).1.valid = false ∧
    (validate_wallpaper fs qf p strict).1.errors ≠ [] ∧
    (min_file_size ≤ sz → idata.height ≠ 0 →
      VError.resolutionTooLow idata.width idata.height ∈
        (validate_wallpaper fs qf p strict).1.errors) ∧
    validate_image fs p = false := by
  have hvi : validate_image fs p = false := by
    rw [validate_image, hget]
    simp only [validContent]
    rw [if_pos hres]
  by_cases hsm : sz < min_file_size
  · refine ⟨?_, ?_, fun hmin _ => absurd hsm (by omega), hvi⟩ <;>
      simp [validate_wallpaper, hget, FileBytes.size, hsm]
  · by_cases hh : idata.height = 0
    · refine ⟨?_, ?_, fun _ hh2 => absurd hh hh2, hvi⟩ <;>
        simp [validate_wallpaper, hget, FileBytes.size, hsm, hh]
    · refine ⟨?_, ?_, fun _ _ => ?_, hvi⟩ <;>
        simp [validate_wallpaper, hget, FileBytes.size, hsm, hh, hres]

/-- Witness for C5 (amended): a 640x480 image of adequate file size is
rejected with the resolution message by both layers. -/
theorem C5_lowres_rejected_witness :
    (validate_wallpaper [("p", exImg 60000 640 480)] exQF "p" false).1.valid = false ∧
    (validate_wallpaper [("p", exImg 60000 640 480)] exQF "p" false).1.errors ≠ [] ∧
    VError.resolutionTooLow 640 480 ∈
      (validate_wallpaper [("p", exImg 60000 640 480)] exQF "p" false).1.errors ∧
    validate_image [("p", exImg 60000 640 480)] "p" = false :=
  have h := C5_lowres_rejected [("p", exImg 60000 640 480)] exQF "p" false
    60000 (exIData 640 480) 0 (by decide) (by decide)
  ⟨h.1, h.2.1, h.2.2.1 (by decide) (by decide), h.2.2.2⟩

/-- The sixth claim: the quality gate appends its aspect-ratio error exactly
when width/height lies strictly outside [0.5, 3.5] (embedded exactly as
`2w < h or 2w > 7h`; the boundaries themselves produce no error), while the
storage layer rejects exactly when the ratio lies strictly outside
[0.5, 3.0] (`2w < h or w > 3h`); for ratios in (3.0, 3.5] the two policies
disagree: `validate_image` rejects while `validate_wallpaper` raises no
aspect error. -/
theorem C6_aspect_boundaries :
    (∀ (fs : FS) (qf : QFState) (p : String) (strict : Bool) (sz : Nat)
        (idata : ImageData) (salt : Nat),
      fsGet fs p = some (.image sz idata salt) → min_file_size ≤ sz → 0 < idata.height →
      (VError.badAspect idata.width idata.height ∈
          (validate_wallpaper fs qf p strict).1.errors ↔
        (2 * idata.width < idata.height ∨ 7 * idata.height < 2 * idata.width)))
    ∧ (∀ (fs : FS) (p : String) (sz : Nat) (idata : ImageData) (salt : Nat),
        fsGet fs p = some (.image sz idata salt) →
        1280 ≤ idata.width → 720 ≤ idata.height →
        (validate_image fs p = false ↔
          (2 * idata.width < idata.height ∨ 3 * idata.height < idata.width)))
    ∧ (∀ (fs : FS) (qf : QFState) (p : String) (strict : Bool) (sz : Nat)
          (idata : ImageData) (salt : Nat),
        fsGet fs p = some (.image sz idata salt) → min_file_size ≤ sz →
        1280 ≤ idata.width → 720 ≤ idata.height →
        3 * idata.height < idata.width → 2 * idata.width ≤ 7 * idata.height →
        (validate_image fs p = false ∧
         VError.badAspect idata.width idata.height ∉
           (validate_wallpaper fs qf p strict).1.errors)) := by
  refine ⟨?_, ?_, ?_⟩
  · intro fs qf p strict sz idata salt hget hmin hpos
    have hsm : ¬ sz < min_file_size := by omega
    have hh : ¬ idata.height = 0 := by omega
    by_cases har : 2 * idata.width < idata.height ∨ 7 * idata.height < 2 * idata.width
    · by_cases hres : idata.width < 1280 ∨ idata.height < 720 <;>
        simp [validate_wallpaper, hget, FileBytes.size, hsm, hh, har, hres]
    · by_cases hres : idata.width < 1280 ∨ idata.height < 720 <;>
        simp [validate_wallpaper, hget, FileBytes.size, hsm, hh, har, hres]
  · intro fs p sz idata salt hget hw hhgt
    have hres : ¬ (idata.width < 1280 ∨ idata.height < 720) := by omega
    by_cases har : 2 * idata.width < idata.height ∨ 3 * idata.height < idata.width <;>
      simp [validate_image, hget, validContent, hres, har]
  · intro fs qf p strict sz idata salt hget hmin hw hhgt hlo hhi
    have hsm : ¬ sz < min_file_size := by omega
    have hh : ¬ idata.height = 0 := by omega
    have hres : ¬ (idata.width < 1280 ∨ idata.height < 720) := by omega
    have har : ¬ (2 * idata.width < idata.height ∨ 7 * idata.height < 2 * idata.width) := by
      omega
    constructor
    · simp [validate_image, hget, validContent, hres]
      omega
    · simp [validate_wallpaper, hget, FileBytes.size, hsm, hh, hres, har]

/-- Witness for C6: a 4480x1280 image has ratio exactly 3.5, inside the
quality gate's band but outside the storage layer's [0.5, 3.0] band, so the
two policies visibly diverge. -/
theorem C6_aspect_boundaries_witness :
    validate_image [("p", exImg 60000 4480 1280)] "p" = false ∧
    VError.badAspect 4480 1280 ∉
      (validate_wallpaper [("p", exImg 60000 4480 1280)] exQF "p" false).1.errors :=
  C6_aspect_boundaries.2.2 [("p", exImg 60000 4480 1280)] exQF "p" false
    60000 (exIData 4480 1280) 0 (by decide) (by decide) (by decide) (by decide)
    (by decide) (by decide)

/-! Lemmas for the eviction sweep. -/

theorem sortByDate_eq_self (l : List (String × WallInfo))
    (hs : l.Chain' (fun a b => a.2.added_date ≤ b.2.added_date)) :
    sortByDate l = l := by
  induction l with
  | nil => rfl
  | cons x xs ih =>
    rw [sortByDate, ih hs.tail]
    cases xs with
    | nil => rfl
    | cons y ys =>
      rw [insertByDate, if_pos (List.chain'_cons.mp hs).1]

theorem dictErase_cons_of_not_mem (a : String × WallInfo) (l : List (String × WallInfo))
    (hnm : a.1 ∉ l.map Prod.fst) : dictErase (a :: l) a.1 = l := by
  rw [dictErase, List.filter_cons]
  simp only [decide_True, Bool.not_true, decide_eq_true_eq]
  rw [if_neg (by simp)]
  apply List.filter_eq_self.mpr
  intro kv hkv
  have hne : kv.1 ≠ a.1 := by
    intro he
    exact hnm (he ▸ List.mem_map_of_mem Prod.fst hkv)
  simp [hne]

theorem foldl_removeStep (pre post : List (String × WallInfo)) (cnt : Nat) (st : MState)
    (fs : FS) (hw : st.wallpapers = pre ++ post)
    (hnd : ((pre ++ post).map Prod.fst).Nodup) :
    (pre.foldl removeStep (cnt, st, fs)).1 = cnt + pre.length ∧
    (pre.foldl removeStep (cnt, st, fs)).2.1.wallpapers = post := by
  induction pre generalizing cnt st fs with
  | nil => simp [hw]
  | cons a pre ih =>
    rw [List.foldl_cons]
    have hmap : ((a :: (pre ++ post)).map Prod.fst).Nodup := by simpa using hnd
    have hkey : a.1 ∉ (pre ++ post).map Prod.fst := (List.nodup_cons.mp hmap).1
    have herase : dictErase st.wallpapers a.1 = pre ++ post := by
      rw [hw]
      exact dictErase_cons_of_not_mem a (pre ++ post) hkey
    have hstep := ih ((removeStep (cnt, st, fs) a).1)
      (removeStep (cnt, st, fs) a).2.1 (removeStep (cnt, st, fs) a).2.2
      (by simpa [removeStep] using herase) (List.nodup_cons.mp hmap).2
    rcases hstep with ⟨hc, hwp⟩
    constructor
    · rw [hc]
      simp [removeStep]
      omega
    · exact hwp

/-- Counterexample for C3 as frozen: a catalog with two live entries and one
dead entry (file missing). Its live entry count is `1 + 1` (maxTotal 1,
k = 1), but `cleanup_old_wallpapers 1` removes and returns 2, because the
sweep counts all catalog entries, live or not. -/
theorem C3_cleanup_livecount_counterexample :
    (list_wallpapers exC3FS exC3St none).length = 1 + 1 ∧
    (cleanup_old_wallpapers exC3FS exC3St 1).1 = 2 := by
  decide

/-- The third claim, amended to count catalog entries rather than live
entries: on a catalog of `m + k` records (`k > 0`) in admission order with
unique ids, `cleanup_old_wallpapers m` removes exactly `k` records and
returns `k`, and the remaining records are exactly the `m` most recently
admitted ones (the suffix by `added_date`); at or below `m` it removes
nothing and returns 0. -/
theorem C3_cleanup_evicts_oldest :
    (∀ (fs : FS) (st : MState) (m k : Nat),
      0 < k → st.wallpapers.length = m + k →
      st.wallpapers.Chain' (fun a b => a.2.added_date ≤ b.2.added_date) →
      ((st.wallpapers.map Prod.fst).Nodup) →
      (cleanup_old_wallpapers fs st m).1 = k ∧
      (cleanup_old_wallpapers fs st m).2.1.wallpapers = st.wallpapers.drop k)
    ∧ (∀ (fs : FS) (st : MState) (m : Nat),
        st.wallpapers.length ≤ m → cleanup_old_wallpapers fs st m = (0, st, fs)) := by
  constructor
  · intro fs st m k hk hlen hsort hnd
    have hnle : ¬ st.wallpapers.length ≤ m := by omega
    rw [cleanup_old_wallpapers, if_neg hnle, sortByDate_eq_self st.wallpapers hsort]
    have htk : st.wallpapers.length - m = k := by omega
    rw [htk]
    have hsplit : st.wallpapers = st.wallpapers.take k ++ st.wallpapers.drop k :=
      (List.take_append_drop k st.wallpapers).symm
    have hfold := foldl_removeStep (st.wallpapers.take k) (st.wallpapers.drop k) 0 st fs
      hsplit (by rw [List.take_append_drop]; exact hnd)
    refine ⟨?_, hfold.2⟩
    rw [hfold.1, List.length_take]
    omega
  · intro fs st m hle
    rw [cleanup_old_wallpapers, if_pos hle]

/-- Witness for C3 (amended): the three-record catalog with maxTotal 1
returns 2 and retains exactly the newest record. -/
theorem C3_cleanup_evicts_oldest_witness :
    (cleanup_old_wallpapers exC3FS exC3St 1).1 = 2 ∧
    (cleanup_old_wallpapers exC3FS exC3St 1).2.1.wallpapers = exC3St.wallpapers.drop 2 :=
  C3_cleanup_evicts_oldest.1 exC3FS exC3St 1 2 (by decide) (by decide)
    (by simp [exC3St, exC3Info, List.chain'_cons]) (by decide)

/-! Characterization lemmas for `store_wallpaper`, used for the idempotent
re-admission claim. -/

theorem store_wallpaper_some_conditions (base : String) (fs : FS) (st : MState)
    (sp sty : String) (m : WallMeta) (tn : Option String) (now : Nat)
    (p : String) (st2 : MState) (fs2 : FS)
    (h : store_wallpaper base fs st sp sty m tn now = (some p, st2, fs2)) :
    sty ∈ validSourceTypes ∧ fsExists fs sp = true ∧ validate_image fs sp = true := by
  rw [store_wallpaper.eq_def] at h
  by_cases h1 : sty ∈ validSourceTypes
  · rw [if_pos h1] at h
    by_cases h2 : fsExists fs sp = true
    · rw [if_pos h2] at h
      by_cases h3 : validate_image fs sp = true
      · exact ⟨h1, h2, h3⟩
      · rw [if_neg h3] at h
        simp at h
    · rw [if_neg h2] at h
      simp at h
  · rw [if_neg h1] at h
    simp at h

theorem store_wallpaper_dup (base : String) (fs : FS) (st : MState) (sp sty : String)
    (m : WallMeta) (tn : Option String) (now : Nat) (e : String)
    (hsty : sty ∈ validSourceTypes) (hex : fsExists fs sp = true)
    (hval : validate_image fs sp = true) (hdup : find_duplicate fs st sp = some e) :
    store_wallpaper base fs st sp sty m tn now = (some e, st, fs) := by
  rw [store_wallpaper.eq_def, if_pos hsty, if_pos hex, if_pos hval]
  simp only [hdup]

theorem store_wallpaper_fresh (base : String) (fs : FS) (st : MState) (sp sty : String)
    (m : WallMeta) (tn : Option String) (now : Nat) (c : FileBytes)
    (hsty : sty ∈ validSourceTypes) (hc1 : fsGet fs sp = some c)
    (hval : validate_image fs sp = true) (hdup : find_duplicate fs st sp = none) :
    store_wallpaper base fs st sp sty m tn now =
      (some (storeTarget base fs sp sty tn),
       ⟨dictInsert st.wallpapers (relId base (storeTarget base fs sp sty tn))
          ⟨storeTarget base fs sp sty tn, sty, now, some c, m⟩,
        st.known_hashes.insert c,
        st.total_downloads + 1,
        bumpCount st.by_source sty⟩,
       fsInsert fs (storeTarget base fs sp sty tn) c) := by
  have hex : fsExists fs sp = true := by rw [fsExists, hc1]; rfl
  rw [store_wallpaper.eq_def, if_pos hsty, if_pos hex, if_pos hval]
  simp only [hdup, hc1]
  simp [calculate_image_hash, fsGet_insert, md5]

/-- After the fresh store of content `c` at `target`, the duplicate scan over
the updated catalog finds exactly the new (or overwritten) record carrying
`target`, because every other record with fingerprint `c` was dead before the
copy and the copy only created `target`. -/
theorem find?_dup_dictInsert (fs : FS) (base target : String) (c : FileBytes)
    (info : WallInfo) (ws : List (String × WallInfo))
    (hpath : info.path = target) (hhash : info.hash = some c)
    (hid : ∀ kv ∈ ws, kv.1 = relId base kv.2.path)
    (hdead : ∀ kv ∈ ws, kv.2.hash = some c → fsExists fs kv.2.path = false) :
    (dictInsert ws (relId base target) info).find? (fun kv =>
        decide (kv.2.hash = some c) && fsExists (fsInsert fs target c) kv.2.path)
      = some (relId base target, info) := by
  induction ws with
  | nil =>
    simp [dictInsert, List.find?, hhash, hpath, fsExists_insert]
  | cons kv rest ih =>
    rw [dictInsert]
    by_cases hk : kv.1 = relId base target
    · rw [if_pos hk]
      have hpred : (decide (info.hash = some c) &&
          fsExists (fsInsert fs target c) info.path) = true := by
        simp [hhash, hpath, fsExists_insert]
      exact List.find?_cons_of_pos _ (by simpa using hpred)
    · rw [if_neg hk]
      have hpred : (decide (kv.2.hash = some c) &&
          fsExists (fsInsert fs target c) kv.2.path) = false := by
        by_cases hh : kv.2.hash = some c
        · have hd := hdead kv (List.mem_cons_self kv rest) hh
          have hne : ¬ target = kv.2.path := by
            intro he
            exact hk ((hid kv (List.mem_cons_self kv rest)).trans (by rw [he]))
          rw [fsExists_insert]
          simp [hd, hne, hh]
        · simp [hh]
      rw [List.find?_cons_of_neg _ (by simpa using hpred)]
      exact ih (fun x hx => hid x (List.mem_cons_of_mem kv hx))
        (fun x hx => hdead x (List.mem_cons_of_mem kv hx))

/-- The first claim: a successful admission followed by a second admission of
byte-identical content (with the stored file still on disk) returns the
originally returned path and leaves the manager state and the filesystem of
the first call completely unchanged — no copy, no new catalog record, no
counter change. -/
theorem C1_store_idempotent (base : String) (fs : FS) (st : MState) (sp sty : String)
    (m : WallMeta) (tn : Option String) (now : Nat) (p : String) (st2 : MState) (fs2 : FS)
    (sp2 sty2 : String) (m2 : WallMeta) (tn2 : Option String) (now2 : Nat) (c : FileBytes)
    (hid : ∀ kv ∈ st.wallpapers, kv.1 = relId base kv.2.path)
    (hhash : ∀ kv ∈ st.wallpapers, ∀ hsh, kv.2.hash = some hsh → hsh ∈ st.known_hashes)
    (h1 : store_wallpaper base fs st sp sty m tn now = (some p, st2, fs2))
    (hc1 : fsGet fs sp = some c)
    (hc2 : fsGet fs2 sp2 = some c)
    (hv2 : sty2 ∈ validSourceTypes) :
    store_wallpaper base fs2 st2 sp2 sty2 m2 tn2 now2 = (some p, st2, fs2) := by
  obtain ⟨hsty, hex, hval⟩ := store_wallpaper_some_conditions base fs st sp sty m tn now
    p st2 fs2 h1
  have hvc : validContent (some c) = true := by rwa [validate_image, hc1] at hval
  rcases hdup : find_duplicate fs st sp with _ | e
  · -- fresh store
    have hdh : find_duplicate_hash fs st c = none := by
      rw [find_duplicate, calculate_image_hash, hc1] at hdup
      simpa [md5] using hdup
    have hdead : ∀ kv ∈ st.wallpapers, kv.2.hash = some c →
        fsExists fs kv.2.path = false := by
      intro kv hkv hh
      by_cases hcin : c ∈ st.known_hashes
      · rw [find_duplicate_hash, if_pos hcin] at hdh
        have hfind := Option.map_eq_none'.mp hdh
        have hnone := List.find?_eq_none.mp hfind kv hkv
        simpa [hh] using hnone
      · exact absurd (hhash kv hkv c hh) hcin
    have hfresh := store_wallpaper_fresh base fs st sp sty m tn now c hsty hc1 hval hdup
    rw [hfresh] at h1
    injection h1 with hA hBC
    injection hBC with hB hC
    injection hA with hA
    subst hA hB hC
    -- second call: the duplicate branch fires and returns the stored target
    have hscan := find?_dup_dictInsert fs base (storeTarget base fs sp sty tn) c
      ⟨storeTarget base fs sp sty tn, sty, now, some c, m⟩ st.wallpapers rfl rfl hid hdead
    refine store_wallpaper_dup base _ _ sp2 sty2 m2 tn2 now2 _ hv2 ?_ ?_ ?_
    · rw [fsExists, hc2]
      rfl
    · rw [validate_image, hc2]
      exact hvc
    · rw [find_duplicate, calculate_image_hash, hc2]
      simp only [Option.map_some', md5]
      simp only [find_duplicate_hash]
      rw [if_pos (List.mem_insert_self c st.known_hashes)]
      rw [hscan]
      rfl
  · -- the first call already returned an existing duplicate
    have hdupped := store_wallpaper_dup base fs st sp sty m tn now e hsty hex hval hdup
    rw [hdupped] at h1
    injection h1 with hA hBC
    injection hBC with hB hC
    injection hA with hA
    subst hA hB hC
    refine store_wallpaper_dup base _ _ sp2 sty2 m2 tn2 now2 _ hv2 ?_ ?_ ?_
    · rw [fsExists, hc2]
      rfl
    · rw [validate_image, hc2]
      exact hvc
    · rw [find_duplicate, calculate_image_hash, hc2]
      simp only [Option.map_some', md5]
      rw [find_duplicate, calculate_image_hash, hc1] at hdup
      simpa [md5] using hdup

/-- Witness for C1: after storing a concrete 1920x1080 image, re-admitting
the byte-identical source file returns the stored path and leaves state and
filesystem untouched. -/
theorem C1_store_idempotent_witness :
    store_wallpaper "B"
        [("B/community/a.png", exImg 60000 1920 1080), ("tmp/a.png", exImg 60000 1920 1080)]
        exSt1 "tmp/a.png" "community" exMeta none 2 =
      (some "B/community/a.png", exSt1,
       [("B/community/a.png", exImg 60000 1920 1080), ("tmp/a.png", exImg 60000 1920 1080)]) :=
  C1_store_idempotent "B" [("tmp/a.png", exImg 60000 1920 1080)] exEmptySt "tmp/a.png"
    "community" exMeta none 1 "B/community/a.png" exSt1
    [("B/community/a.png", exImg 60000 1920 1080), ("tmp/a.png", exImg 60000 1920 1080)]
    "tmp/a.png" "community" exMeta none 2 (exImg 60000 1920 1080)
    (by decide) (by decide) (by decide) (by decide) (by decide) (by decide)

/-! Lemmas for the collision-renaming loop: the decimal printer is injective,
so the candidate names are pairwise distinct and the loop's fuel suffices. -/

theorem natStrAux_eq (fuel : Nat) :
    ∀ n, n ≤ fuel → natStrAux fuel n = (Nat.digits 10 n).reverse.map digitChar := by
  induction fuel with
  | zero =>
    intro n hn
    interval_cases n
    simp [natStrAux]
  | succ fuel ih =>
    intro n hn
    cases n with
    | zero => simp [natStrAux]
    | succ n =>
      have hdiv : (n + 1) / 10 < n + 1 := Nat.div_lt_self (by omega) (by omega)
      rw [natStrAux, ih ((n + 1) / 10) (by omega),
        Nat.digits_def' (b := 10) (by norm_num) (Nat.succ_pos n)]
      simp

theorem digitChar_inj (d1 d2 : Nat) (h1 : d1 < 10) (h2 : d2 < 10)
    (he : digitChar d1 = digitChar d2) : d1 = d2 := by
  interval_cases d1 <;> interval_cases d2 <;>
    first
    | rfl
    | exact absurd he (by decide)

theorem map_digitChar_inj (l1 : List Nat) :
    ∀ l2 : List Nat, (∀ x ∈ l1, x < 10) → (∀ x ∈ l2, x < 10) →
      l1.map digitChar = l2.map digitChar → l1 = l2 := by
  induction l1 with
  | nil =>
    intro l2 _ _ he
    cases l2 with
    | nil => rfl
    | cons b t => simp at he
  | cons a t1 ih =>
    intro l2 h1 h2 he
    cases l2 with
    | nil => simp at he
    | cons b t2 =>
      simp only [List.map_cons] at he
      injection he with hh ht
      have hab := digitChar_inj a b (h1 a (List.mem_cons_self a t1))
        (h2 b (List.mem_cons_self b t2)) hh
      rw [hab, ih t2 (fun x hx => h1 x (List.mem_cons_of_mem a hx))
        (fun x hx => h2 x (List.mem_cons_of_mem b hx)) ht]

theorem natStr_inj (a b : Nat) (ha : 0 < a) (hb : 0 < b) (he : natStr a = natStr b) :
    a = b := by
  rw [natStr, natStr, if_neg (by omega), if_neg (by omega)] at he
  have hdata : natStrAux a a = natStrAux b b := congrArg String.data he
  rw [natStrAux_eq a a le_rfl, natStrAux_eq b b le_rfl] at hdata
  rw [List.map_reverse, List.map_reverse] at hdata
  have hmap := List.reverse_inj.mp hdata
  have hdig := map_digitChar_inj _ _
    (fun x hx => Nat.digits_lt_base (by norm_num) hx)
    (fun x hx => Nat.digits_lt_base (by norm_num) hx) hmap
  calc a = Nat.ofDigits 10 (Nat.digits 10 a) := (Nat.ofDigits_digits 10 a).symm
    _ = Nat.ofDigits 10 (Nat.digits 10 b) := by rw [hdig]
    _ = b := Nat.ofDigits_digits 10 b

theorem candName_inj (dir stem ext : String) (a b : Nat) (ha : 0 < a) (hb : 0 < b)
    (he : candName dir stem ext a = candName dir stem ext b) : a = b := by
  apply natStr_inj a b ha hb
  apply String.ext
  have hdata := congrArg String.data he
  simp only [candName, String.data_append, List.append_assoc,
    List.append_cancel_left_eq] at hdata
  exact List.append_cancel_right hdata

theorem collisionLoop_least (fs : FS) (dir stem ext : String) :
    ∀ (fuel c : Nat),
      (∃ j, j < fuel ∧ fsExists fs (candName dir stem ext (c + j)) = false) →
      ∃ j, j < fuel ∧
        collisionLoop fs dir stem ext fuel c = candName dir stem ext (c + j) ∧
        fsExists fs (candName dir stem ext (c + j)) = false ∧
        ∀ i, i < j → fsExists fs (candName dir stem ext (c + i)) = true := by
  intro fuel
  induction fuel with
  | zero =>
    intro c h
    obtain ⟨j, hj, _⟩ := h
    omega
  | succ fuel ih =>
    intro c h
    by_cases hocc : fsExists fs (candName dir stem ext c) = true
    · obtain ⟨j, hj, hfree⟩ := h
      have hj0 : j ≠ 0 := by
        intro h0
        rw [h0, Nat.add_zero] at hfree
        rw [hfree] at hocc
        exact Bool.false_ne_true hocc
      obtain ⟨j2, hj2, hloop, hfree2, hmin⟩ := ih (c + 1)
        ⟨j - 1, by omega, by
          have harith : c + 1 + (j - 1) = c + j := by omega
          rw [harith]
          exact hfree⟩
      refine ⟨j2 + 1, by omega, ?_, ?_, ?_⟩
      · simp only [collisionLoop]
        rw [if_pos hocc, hloop]
        congr 1
        omega
      · have harith : c + (j2 + 1) = c + 1 + j2 := by omega
        rw [harith]
        exact hfree2
      · intro i hi
        cases i with
        | zero => simpa using hocc
        | succ i =>
          have harith : c + (i + 1) = c + 1 + i := by omega
          rw [harith]
          exact hmin i (by omega)
    · refine ⟨0, by omega, ?_, ?_, ?_⟩
      · simp only [collisionLoop]
        rw [if_neg hocc, Nat.add_zero]
      · rw [Nat.add_zero]
        simpa using hocc
      · intro i hi
        omega

theorem fsExists_mem_keys (fs : FS) (p : String) (h : fsExists fs p = true) :
    p ∈ fs.map Prod.fst := by
  rw [fsExists, fsGet] at h
  obtain ⟨kv, hkv⟩ : ∃ kv, fs.find? (fun kv => decide (kv.1 = p)) = some kv := by
    cases hf : fs.find? (fun kv => decide (kv.1 = p)) with
    | none =>
      rw [hf] at h
      simp at h
    | some kv => exact ⟨kv, rfl⟩
  have hmem := List.mem_of_find?_eq_some hkv
  have hp := List.find?_some hkv
  simp only [decide_eq_true_eq] at hp
  exact hp ▸ List.mem_map_of_mem Prod.fst hmem

theorem exists_free_cand (fs : FS) (dir stem ext : String) :
    ∃ j, j < fs.length + 1 ∧ fsExists fs (candName dir stem ext (1 + j)) = false := by
  by_contra hall
  push_neg at hall
  have hocc : ∀ j < fs.length + 1, fsExists fs (candName dir stem ext (1 + j)) = true := by
    intro j hj
    cases hfe : fsExists fs (candName dir stem ext (1 + j)) with
    | false => exact absurd hfe (hall j hj)
    | true => rfl
  have hnd : ((List.range (fs.length + 1)).map
      (fun j => candName dir stem ext (1 + j))).Nodup := by
    apply List.Nodup.map_on ?_ (List.nodup_range _)
    intro x _ y _ hxy
    have := candName_inj dir stem ext (1 + x) (1 + y) (by omega) (by omega) hxy
    omega
  have hsub : ((List.range (fs.length + 1)).map
      (fun j => candName dir stem ext (1 + j))) ⊆ fs.map Prod.fst := by
    intro s hs
    rw [List.mem_map] at hs
    obtain ⟨j, hj, rfl⟩ := hs
    exact fsExists_mem_keys fs _ (hocc j (by simpa using hj))
  have hlen := (hnd.subperm hsub).length_le
  simp at hlen

theorem pySanitize_allowed (s : String) :
    ∀ ch ∈ (pySanitize s).data, pyAllowed ch = true := by
  intro ch hch
  have h1 : ch ∈ (s.data.filter pyAllowed).reverse.dropWhile Char.isWhitespace := by
    simpa [pySanitize, pyRstrip] using hch
  have h2 := (List.dropWhile_sublist _).subset h1
  have h3 : ch ∈ s.data.filter pyAllowed := by simpa using h2
  exact (List.mem_filter.mp h3).2

theorem pySanitize_sublist (s : String) : (pySanitize s).data.Sublist s.data := by
  show ((s.data.filter pyAllowed).reverse.dropWhile Char.isWhitespace).reverse.Sublist s.data
  have h1 := (List.dropWhile_sublist (l := (s.data.filter pyAllowed).reverse)
    Char.isWhitespace).reverse
  rw [List.reverse_reverse] at h1
  exact h1.trans (List.filter_sublist _)

/-- The ninth claim: on a name collision, `store_wallpaper` returns the
category directory plus `stem_N.ext` for the smallest positive integer `N`
whose name is free (every smaller positive counter being occupied), and a
supplied target-name override is first sanitized to keep only alphanumeric
characters, spaces, hyphens, and underscores (a subsequence of the original
override). -/
theorem C9_collision_naming (base : String) (fs : FS) (st : MState) (sp sty : String)
    (m : WallMeta) (tn : Option String) (now : Nat) (c : FileBytes)
    (hsty : sty ∈ validSourceTypes) (hc1 : fsGet fs sp = some c)
    (hval : validate_image fs sp = true) (hdup : find_duplicate fs st sp = none)
    (hcol : fsExists fs (dirFor base sty ++ "/" ++ storeTargetName sp tn) = true) :
    (∃ N, 0 < N ∧
      (store_wallpaper base fs st sp sty m tn now).1 =
        some (candName (dirFor base sty) (pathStemExt (storeTargetName sp tn)).1
          (pathStemExt (storeTargetName sp tn)).2 N) ∧
      fsExists fs (candName (dirFor base sty) (pathStemExt (storeTargetName sp tn)).1
        (pathStemExt (storeTargetName sp tn)).2 N) = false ∧
      ∀ i, 0 < i → i < N →
        fsExists fs (candName (dirFor base sty) (pathStemExt (storeTargetName sp tn)).1
          (pathStemExt (storeTargetName sp tn)).2 i) = true)
    ∧ (∀ t, tn = some t →
        storeTargetName sp tn = pySanitize t ++ pySuffix sp ∧
        (∀ ch ∈ (pySanitize t).data,
          ch.isAlphanum = true ∨ ch = ' ' ∨ ch = '-' ∨ ch = '_') ∧
        (pySanitize t).data.Sublist t.data) := by
  constructor
  · have hres := store_wallpaper_fresh base fs st sp sty m tn now c hsty hc1 hval hdup
    have hfst : (store_wallpaper base fs st sp sty m tn now).1 =
        some (storeTarget base fs sp sty tn) := by rw [hres]
    have htv : storeTarget base fs sp sty tn =
        collisionLoop fs (dirFor base sty) (pathStemExt (storeTargetName sp tn)).1
          (pathStemExt (storeTargetName sp tn)).2 (fs.length + 1) 1 := by
      simp only [storeTarget]
      rw [if_pos hcol]
    obtain ⟨j, hjlt, hloop, hfree, hmin⟩ :=
      collisionLoop_least fs (dirFor base sty) (pathStemExt (storeTargetName sp tn)).1
        (pathStemExt (storeTargetName sp tn)).2 (fs.length + 1) 1
        (exists_free_cand fs (dirFor base sty) _ _)
    refine ⟨1 + j, by omega, ?_, hfree, ?_⟩
    · rw [hfst, htv, hloop]
    · intro i hi0 hiN
      have harith : i = 1 + (i - 1) := by omega
      rw [harith]
      exact hmin (i - 1) (by omega)
  · intro t ht
    subst ht
    refine ⟨rfl, ?_, pySanitize_sublist t⟩
    intro ch hch
    have hal := pySanitize_allowed t ch hch
    have hor : ((ch.isAlphanum = true ∨ ch = ' ') ∨ ch = '-') ∨ ch = '_' := by
      simpa [pyAllowed, Bool.or_eq_true, decide_eq_true_eq] using hal
    tauto

/-- Witness for C9: storing a second distinct file named `a.png` into a
directory already holding `a.png` chooses the smallest free numeric suffix. -/
theorem C9_collision_naming_witness :
    ∃ N, 0 < N ∧
      (store_wallpaper "B"
        [("B/community/a.png", exImg 60000 1920 1080), ("tmp/a.png", exImg 60000 1920 1080)]
        exEmptySt "tmp/a.png" "community" exMeta none 1).1 =
        some (candName (dirFor "B" "community")
          (pathStemExt (storeTargetName "tmp/a.png" none)).1
          (pathStemExt (storeTargetName "tmp/a.png" none)).2 N) ∧
      fsExists
        [("B/community/a.png", exImg 60000 1920 1080), ("tmp/a.png", exImg 60000 1920 1080)]
        (candName (dirFor "B" "community")
          (pathStemExt (storeTargetName "tmp/a.png" none)).1
          (pathStemExt (storeTargetName "tmp/a.png" none)).2 N) = false ∧
      ∀ i, 0 < i → i < N →
        fsExists
          [("B/community/a.png", exImg 60000 1920 1080), ("tmp/a.png", exImg 60000 1920 1080)]
          (candName (dirFor "B" "community")
            (pathStemExt (storeTargetName "tmp/a.png" none)).1
            (pathStemExt (storeTargetName "tmp/a.png" none)).2 i) = true :=
  (C9_collision_naming "B"
    [("B/community/a.png", exImg 60000 1920 1080), ("tmp/a.png", exImg 60000 1920 1080)]
    exEmptySt "tmp/a.png" "community" exMeta none 1 (exImg 60000 1920 1080)
    (by decide) (by decide) (by decide) (by decide) (by decide)).1
